import Mathlib

/-!
# Verification of the cluster-topology-analyzer core

A shallow embedding, in Lean 4, of the connectivity-inference core of the
cluster-topology-analyzer: the network-address heuristic
(`pkg/analyzer/scan.go`), selector and endpoint matching
(`pkg/controller/connections.go`), the Route/Ingress exposure table
(`pkg/analyzer/scan.go` and the resource finder), the YAML document splitter
and resource-scan error accumulation, and the config-map indirection
resolver.

Go strings are modelled as Lean `String`/`List Char`; the inputs handled by
the tool are ASCII, where Go's byte-wise processing coincides with the
char-wise processing used here.  Go slices become `List`, Go maps become
association lists with Go-map update semantics, Go `int` becomes `Int`, and
in-place mutation becomes explicit state passing.
-/

/- ------------------------------------------------------------------ -/
/- Model of the success/failure behaviour of Go `net/url.Parse`       -/
/- (the standard library call made by `IsNetworkAddressValue`).        -/
/- Only whether parsing succeeds matters to the analyzer.              -/
/- ------------------------------------------------------------------ -/

/-- `stringContainsCTLByte`: ASCII control character (C0 or DEL). -/
def isCtlChar (c : Char) : Bool :=
  c.toNat < 0x20 || c.toNat == 0x7f

def isUrlAlpha (c : Char) : Bool :=
  (97 ≤ c.toNat && c.toNat ≤ 122) || (65 ≤ c.toNat && c.toNat ≤ 90)

def isUrlDigit (c : Char) : Bool :=
  48 ≤ c.toNat && c.toNat ≤ 57

def isHexChar (c : Char) : Bool :=
  isUrlDigit c || (97 ≤ c.toNat && c.toNat ≤ 102) || (65 ≤ c.toNat && c.toNat ≤ 70)

def unhexVal (c : Char) : Nat :=
  if isUrlDigit c then c.toNat - 48
  else if 97 ≤ c.toNat && c.toNat ≤ 102 then c.toNat - 87
  else if 65 ≤ c.toNat && c.toNat ≤ 70 then c.toNat - 55
  else 0

/-- Go `split(s, sep, cutc=true)`: the part before the first `sep` and the
part after it (separator dropped); if `sep` is absent, `(s, "")`. -/
def splitCutFirst (sep : Char) : List Char → List Char × List Char
  | [] => ([], [])
  | x :: xs =>
    if x = sep then ([], xs)
    else
      let r := splitCutFirst sep xs
      (x :: r.1, r.2)

def idxOfChar (c : Char) (s : List Char) : Option Nat :=
  s.findIdx? (fun x => x == c)

def lastIdxOfChar (c : Char) (s : List Char) : Option Nat :=
  match idxOfChar c s.reverse with
  | none => none
  | some i => some (s.length - 1 - i)

/-- `strings.Index(s, "%25")`: first index of the substring `%25`. -/
def idxOfPercent25 : List Char → Option Nat
  | '%' :: '2' :: '5' :: _ => some 0
  | _ :: rest => (idxOfPercent25 rest).map (· + 1)
  | [] => none

/-- Go `getScheme`: `none` models the `missing protocol scheme` error;
`some (scheme, rest)` the successful outcomes (`scheme = []` when the
input has no scheme and is returned whole as `rest`). -/
def getSchemeGo (orig : List Char) : List Char → Bool → List Char →
    Option (List Char × List Char)
  | [], _, _ => some ([], orig)
  | c :: rest, isFirst, acc =>
    if isUrlAlpha c then getSchemeGo orig rest false (acc ++ [c])
    else if isUrlDigit c || c == '+' || c == '-' || c == '.' then
      (if isFirst then some ([], orig) else getSchemeGo orig rest false (acc ++ [c]))
    else if c = ':' then
      (if isFirst then none else some (acc, rest))
    else some ([], orig)

def getScheme (s : List Char) : Option (List Char × List Char) :=
  getSchemeGo s s true []

/-- `shouldEscape(c, encodeHost)` on a byte value: bytes a host may carry
unescaped (alphanumerics, host sub-delims, and unreserved marks). -/
def shouldEscapeHostByte (n : Nat) : Bool :=
  if (97 ≤ n && n ≤ 122) || (65 ≤ n && n ≤ 90) || (48 ≤ n && n ≤ 57) then false
  else if ['!', '$', '&', '\'', '(', ')', '*', '+', ',', ';', '=', ':',
           '[', ']', '<', '>', '"'].any (fun c => c.toNat == n) then false
  else if ['-', '_', '.', '~'].any (fun c => c.toNat == n) then false
  else true

inductive EscMode where
  | host
  | zone
  | path
  | fragment
  | userPassword
deriving DecidableEq

/-- Success of Go `unescape(s, mode)` for the modes reached from `Parse`:
percent escapes need two hex digits; hosts additionally reject escapes of
ASCII bytes other than `%25` and raw bytes that require escaping.  In the
path, fragment and user-password modes only hex-validity of the escapes
can fail. -/
def unescapeOk (mode : EscMode) : List Char → Bool
  | [] => true
  | c :: rest =>
    if c = '%' then
      match rest with
      | c1 :: c2 :: rest2 =>
        if ¬(isHexChar c1 && isHexChar c2) then false
        else if mode = .host ∧ unhexVal c1 < 8 ∧ ¬(c1 = '2' ∧ c2 = '5') then false
        else if mode = .zone ∧ ¬(c1 = '2' ∧ c2 = '5') ∧
            (unhexVal c1 * 16 + unhexVal c2) ≠ 0x20 ∧
            shouldEscapeHostByte (unhexVal c1 * 16 + unhexVal c2) then false
        else unescapeOk mode rest2
      | _ => false
    else if c = '+' then unescapeOk mode rest
    else if (mode = .host ∨ mode = .zone) ∧ c.toNat < 0x80 ∧
        shouldEscapeHostByte c.toNat then false
    else unescapeOk mode rest

/-- Go `validOptionalPort`: empty, or `:` followed by digits only. -/
def validOptionalPort : List Char → Bool
  | [] => true
  | c :: rest => if c = ':' then rest.all isUrlDigit else false

/-- Success of Go `parseHost`: bracketed hosts need a closing bracket and a
valid optional port; `%25` zones are unescaped piecewise; otherwise the text
after the last colon must be a valid optional port, and the whole host must
unescape in host mode. -/
def parseHostOk (host : List Char) : Bool :=
  match host with
  | '[' :: _ =>
    (match lastIdxOfChar ']' host with
     | none => false
     | some i =>
       validOptionalPort (host.drop (i + 1)) &&
       (match idxOfPercent25 (host.take i) with
        | some z =>
          unescapeOk .host (host.take z) &&
          unescapeOk .zone ((host.take i).drop z) &&
          unescapeOk .host (host.drop i)
        | none => unescapeOk .host host))
  | _ =>
    match lastIdxOfChar ':' host with
    | some i => validOptionalPort (host.drop i) && unescapeOk .host host
    | none => unescapeOk .host host

/-- Go `validUserinfo`. -/
def validUserinfo (s : List Char) : Bool :=
  s.all (fun c =>
    isUrlAlpha c || isUrlDigit c ||
    ['-', '.', '_', ':', '~', '!', '$', '&', '\'', '(', ')',
     '*', '+', ',', ';', '=', '%', '@'].contains c)

/-- Success of Go `parseAuthority`: the part after the last `@` is the
host; the part before it must be valid userinfo and must then unescape in
user-password mode — as a whole when it has no colon, otherwise as the
username and password pieces cut at the first colon. -/
def parseAuthorityOk (authority : List Char) : Bool :=
  match lastIdxOfChar '@' authority with
  | none => parseHostOk authority
  | some i =>
    parseHostOk (authority.drop (i + 1)) &&
    validUserinfo (authority.take i) &&
    (if (authority.take i).contains ':' then
      unescapeOk .userPassword (splitCutFirst ':' (authority.take i)).1 &&
      unescapeOk .userPassword (splitCutFirst ':' (authority.take i)).2
    else unescapeOk .userPassword (authority.take i))

/-- Success of Go `parse(rawURL, viaRequest=false)` on the pre-fragment part:
control-character check, `*` special case, scheme extraction, query split,
the opaque shortcut for rootless scheme-ful URLs, the first-segment-colon
rule for rootless scheme-less URLs, authority parsing after `//`, and path
unescaping. -/
def urlParseOkCore (s : List Char) : Bool :=
  if s.any isCtlChar then false
  else if s = ['*'] then true
  else
    match getScheme s with
    | none => false
    | some (scheme, rest0) =>
      let rest :=
        if rest0.getLast? = some '?' ∧ ¬(rest0.dropLast.contains '?') then rest0.dropLast
        else (splitCutFirst '?' rest0).1
      if rest.head? ≠ some '/' then
        if scheme ≠ [] then true
        else if (splitCutFirst '/' rest).1.contains ':' then false
        else unescapeOk .path rest
      else if (scheme ≠ [] ∨ ¬(['/', '/', '/'].isPrefixOf rest)) ∧
          (['/', '/'].isPrefixOf rest) then
        let after := rest.drop 2
        let authRest :=
          match idxOfChar '/' after with
          | some i => (after.take i, after.drop i)
          | none => (after, ([] : List Char))
        parseAuthorityOk authRest.1 && unescapeOk .path authRest.2
      else unescapeOk .path rest

/-- Success of Go `url.Parse`: split the fragment off first, parse the rest,
then unescape a non-empty fragment in fragment mode. -/
def urlParseOk (s : String) : Bool :=
  let uf := splitCutFirst '#' s.data
  urlParseOkCore uf.1 && (uf.2.isEmpty || unescapeOk .fragment uf.2)

/- ------------------------------------------------------------------ -/
/- Model of Go `strconv.Atoi` success (base 10, 64-bit int).           -/
/- ------------------------------------------------------------------ -/

def digitsToNat (l : List Char) : Nat :=
  l.foldl (fun acc c => 10 * acc + (c.toNat - 48)) 0

/-- Success of Go `strconv.Atoi`: an optional sign, one or more decimal
digits, and the value must fit a 64-bit signed integer. -/
def atoiOk (s : String) : Bool :=
  match s.data with
  | [] => false
  | c :: rest =>
    let signDigits : Bool × List Char :=
      if c = '+' then (false, rest)
      else if c = '-' then (true, rest)
      else (false, c :: rest)
    match signDigits with
    | (neg, digits) =>
      ¬digits.isEmpty && digits.all isUrlDigit &&
      (if neg then digitsToNat digits ≤ 2 ^ 63 else digitsToNat digits < 2 ^ 63)

/- ------------------------------------------------------------------ -/
/- pkg/analyzer/scan.go                                                -/
/- ------------------------------------------------------------------ -/

/-- `IsNetworkAddressValue` (scan.go): a string is a candidate network
address iff `url.Parse` accepts it and `strconv.Atoi` rejects it. -/
def IsNetworkAddressValue (value : String) : Bool :=
  urlParseOk value && !(atoiOk value)

/- ------------------------------------------------------------------ -/
/- pkg/common data model (struct fields as used by the analyzed code)  -/
/- ------------------------------------------------------------------ -/

/-- `common.CfgMapKeyRef`: one pending single-key config-map reference. -/
structure CfgMapKeyRef where
  name : String
  key : String
deriving DecidableEq, Repr

/-- The inner `Resource` struct of `common.Resource` (workload record).
`selectors` is the flattened `key:value` label list (`Selectors` in
connections.go); `networkAddrs` is the discovered-address pool (`Envs` in
connections.go, `NetworkAddrs` in scan.go); `namespc` is `Namespace`. -/
structure Resource where
  name : String
  namespc : String
  kind : String
  selectors : List String
  networkAddrs : List String
  configMapRefs : List String
  configMapKeyRefs : List CfgMapKeyRef
  usedPorts : List Int
  image : String
  serviceAccountName : String
  filePath : String
deriving DecidableEq, Repr

/-- `common.SvcNetworkAttr`: one declared service port tuple (the
`TargetPort` int-or-string is modelled by its integer form; it is not
consulted by the analyzed code). -/
structure SvcNetworkAttr where
  port : Int
  targetPort : Int
  protocol : String
deriving DecidableEq, Repr

/-- The inner `Resource` struct of `common.Service` (service record). -/
structure Service where
  name : String
  namespc : String
  kind : String
  type : String
  selectors : List String
  network : List SvcNetworkAttr
  exposeExternally : Bool
  exposeToCluster : Bool
  filePath : String
deriving DecidableEq, Repr

/-- `common.Connections`: one inferred edge.  A Go zero-valued `Source`
(the "no source found" branch) is modelled as `none`. -/
structure Connections where
  source : Option Resource
  target : Resource
  link : Service
deriving DecidableEq, Repr

/-- `common.CfgMap`: full name plus the address-like data subset; the Go
string-keyed map is an association list with unique keys. -/
structure CfgMap where
  fullName : String
  data : List (String × String)
deriving DecidableEq, Repr

/-- `common.ServicesToExpose`: namespace → service name → exposure bool,
as nested association lists with Go-map update semantics. -/
abbrev ServicesToExpose := List (String × List (String × Bool))

/- ------------------------------------------------------------------ -/
/- pkg/controller/connections.go                                       -/
/- ------------------------------------------------------------------ -/

/-- `areSelectorsContained` (connections.go): true if `selectors2` is
contained in `selectors1`.  The Go string-set map built from `selectors1`
is modelled by list membership. -/
def areSelectorsContained (selectors1 selectors2 : List String) : Bool :=
  selectors2.all (fun v => selectors1.contains v)

/-- `findServices` (connections.go): the services whose selector set is
contained in the given deployment selectors, in input order. -/
def findServices (selectors : List String) (links : List Service) : List Service :=
  links.filter (fun l => areSelectorsContained selectors l.selectors)

/-- The per-address transformation in `findSource` (connections.go):
`if strings.HasPrefix(e, "http://") { e = strings.TrimLeft(e, "http://") }`.
Note `TrimLeft` takes a *cutset*: it drops every leading character drawn
from `{'h','t','p',':','/'}`, not just the literal prefix. -/
def stripHTTPAddr (e : String) : String :=
  if "http://".data.isPrefixOf e.data then
    String.mk (e.data.dropWhile (fun c =>
      c == 'h' || c == 't' || c == 'p' || c == ':' || c == '/'))
  else e

def findSourceEnvStep (ep : String) (port : Int) (r : Resource)
    (acc : List Resource × Bool) (e : String) : List Resource × Bool :=
  if ep = stripHTTPAddr e then
    (acc.1 ++ [{ r with usedPorts := [port] }], true)
  else acc

def findSourceResStep (ep : String) (port : Int)
    (acc : List Resource × Bool) (r : Resource) : List Resource × Bool :=
  r.networkAddrs.foldl (findSourceEnvStep ep port r) acc

def findSourcePortStep (resources : List Resource) (serviceName : String)
    (acc : List Resource × Bool) (p : SvcNetworkAttr) : List Resource × Bool :=
  let ep := serviceName ++ ":" ++ toString p.port
  resources.foldl (findSourceResStep ep p.port) acc

/-- `findSource` (connections.go): for each declared port, build the
canonical endpoint `serviceName:port` and compare it against every
resource's discovered-address pool (after the cutset trim); every match
appends a copy of the resource with `UsedPorts` set to that port. -/
def findSource (resources : List Resource) (service : Service) :
    List Resource × Bool :=
  service.network.foldl (findSourcePortStep resources service.name) ([], false)

def discoverSvcStep (resources : List Resource) (destRes : Resource)
    (conns : List Connections) (s : Service) : List Connections :=
  let sf := findSource resources s
  if sf.2 then
    conns ++ sf.1.map (fun r => { source := some r, target := destRes, link := s })
  else
    conns ++ [{ source := none, target := destRes, link := s }]

/-- `discoverConnections` (connections.go): for each resource as target,
find its fronting services and, per service, either one edge per discovered
source or a single source-less edge.  (The Go function also returns an
always-`nil` error, omitted here.) -/
def discoverConnections (resources : List Resource) (links : List Service) :
    List Connections :=
  resources.foldl (fun conns destRes =>
    (findServices destRes.selectors links).foldl
      (discoverSvcStep resources destRes) conns) []

/- ------------------------------------------------------------------ -/
/- pkg/analyzer/scan.go: workload env/args extraction                  -/
/- ------------------------------------------------------------------ -/

/-- A container env entry (`v1.EnvVar`): literal value, or a
config-map-key source. -/
structure EnvVar where
  name : String
  value : String
  valueFromConfigMapKeyRef : Option CfgMapKeyRef
deriving DecidableEq, Repr

/-- A `v1.EnvFromSource` restricted to its config-map reference. -/
structure EnvFromSource where
  configMapRefName : Option String
deriving DecidableEq, Repr

structure Container where
  image : String
  env : List EnvVar
  envFrom : List EnvFromSource
  args : List String
deriving DecidableEq, Repr

/-- A `v1.PodTemplateSpec` restricted to the fields scan.go reads. -/
structure PodTemplateSpec where
  serviceAccountName : String
  containers : List Container
deriving DecidableEq, Repr

def parseEnvStep (rc : Resource) (e : EnvVar) : Resource :=
  if e.value ≠ "" then
    (if IsNetworkAddressValue e.value then
      { rc with networkAddrs := rc.networkAddrs ++ [e.value] }
    else rc)
  else
    match e.valueFromConfigMapKeyRef with
    | some keyRef =>
      if keyRef.name ≠ "" ∧ keyRef.key ≠ "" then
        { rc with configMapKeyRefs := rc.configMapKeyRefs ++ [keyRef] }
      else rc
    | none => rc

def parseEnvFromStep (rc : Resource) (envFrom : EnvFromSource) : Resource :=
  match envFrom.configMapRefName with
  | some n => { rc with configMapRefs := rc.configMapRefs ++ [n] }
  | none => rc

def parseArgStep (rc : Resource) (arg : String) : Resource :=
  if IsNetworkAddressValue arg then
    { rc with networkAddrs := rc.networkAddrs ++ [arg] }
  else rc

def parseContainerStep (rc : Resource) (container : Container) : Resource :=
  let rc := { rc with image := container.image }
  let rc := container.env.foldl parseEnvStep rc
  let rc := container.envFrom.foldl parseEnvFromStep rc
  container.args.foldl parseArgStep rc

/-- `parseDeployResource` (scan.go): fill identity, then per container
record the image, the address-like env values, the pending config-map
references, and the address-like command-line arguments.  The meta
object is modelled by its name and namespace. -/
def parseDeployResource (podSpec : PodTemplateSpec) (metaName metaNamespc : String)
    (resourceCtx : Resource) : Resource :=
  let rc := { resourceCtx with
    name := metaName
    namespc := metaNamespc
    serviceAccountName := podSpec.serviceAccountName }
  podSpec.containers.foldl parseContainerStep rc

/- ------------------------------------------------------------------ -/
/- pkg/analyzer/scan.go: Route / Ingress exposure-intent scanning      -/
/- ------------------------------------------------------------------ -/

/-- An OpenShift Route restricted to the fields scan.go reads:
namespace, `Spec.To.Name`, and alternate-backend service names. -/
structure RouteObj where
  namespc : String
  toName : String
  alternateBackends : List String
deriving DecidableEq, Repr

/-- One `HTTPIngressPath` backend service name (may be absent). -/
structure IngressPath where
  backendServiceName : Option String
deriving DecidableEq, Repr

/-- One ingress rule: `rule.HTTP` may be nil. -/
structure IngressRule where
  http : Option (List IngressPath)
deriving DecidableEq, Repr

structure IngressObj where
  namespc : String
  defaultBackendService : Option String
  rules : List IngressRule
deriving DecidableEq, Repr

/-- Go map assignment `m[k] = v` on an association list: replace in place
or append. -/
def setAssoc {β : Type} : List (String × β) → String → β → List (String × β)
  | [], k, v => [(k, v)]
  | (k', v') :: rest, k, v =>
    if k' = k then (k', v) :: rest else (k', v') :: setAssoc rest k v

def lookupAssoc {β : Type} : List (String × β) → String → Option β
  | [], _ => none
  | (k', v') :: rest, k => if k' = k then some v' else lookupAssoc rest k

/-- `servicesToExpose[ns][name] = v`, creating the namespace map when
absent (as both scanners do). -/
def setExposure (table : ServicesToExpose) (ns name : String) (v : Bool) :
    ServicesToExpose :=
  match lookupAssoc table ns with
  | some inner => setAssoc table ns (setAssoc inner name v)
  | none => setAssoc table ns (setAssoc [] name v)

/-- `servicesToExpose[ns] = map[string]bool{}` when absent. -/
def ensureNamespaceEntry (table : ServicesToExpose) (ns : String) :
    ServicesToExpose :=
  match lookupAssoc table ns with
  | some _ => table
  | none => setAssoc table ns []

/-- `ScanOCRouteObject` (scan.go), table update only: register the `To`
service and every alternate backend with the value `false`.  (The kind
check and YAML decoding are handled by the finder's dispatch.) -/
def ScanOCRouteObject (routeObj : RouteObj) (servicesToExpose : ServicesToExpose) :
    ServicesToExpose :=
  let table := ensureNamespaceEntry servicesToExpose routeObj.namespc
  let table := setExposure table routeObj.namespc routeObj.toName false
  routeObj.alternateBackends.foldl
    (fun t backend => setExposure t routeObj.namespc backend false) table

/-- `ScanIngressObject` (scan.go), table update only: register the default
backend service (when present) and every per-rule backend service with the
value `false`. -/
def ScanIngressObject (ingressObj : IngressObj) (servicesToExpose : ServicesToExpose) :
    ServicesToExpose :=
  let table := ensureNamespaceEntry servicesToExpose ingressObj.namespc
  let table :=
    match ingressObj.defaultBackendService with
    | some n => setExposure table ingressObj.namespc n false
    | none => table
  ingressObj.rules.foldl (fun t rule =>
    match rule.http with
    | some paths =>
      paths.foldl (fun t' path =>
        match path.backendServiceName with
        | some n => setExposure t' ingressObj.namespc n false
        | none => t') t
    | none => t) table

/- ------------------------------------------------------------------ -/
/- pkg/controller/error_types.go                                       -/
/- ------------------------------------------------------------------ -/

/-- `FileProcessingError`: location context plus the two orthogonal
severity bits.  `lineNum` is 1-based with 0 = unknown; `docID` is 0-based
with -1 = unknown.  The wrapped Go `error` is modelled by its message. -/
structure FileProcessingError where
  msg : String
  filePath : String
  lineNum : Int
  docID : Int
  fatal : Bool
  severe : Bool
deriving DecidableEq, Repr

def noYamlsFound : FileProcessingError :=
  { msg := "no yaml files found", filePath := "", lineNum := 0, docID := -1,
    fatal := false, severe := false }

def configMapNotFound (cfgMapName resourceName : String) : FileProcessingError :=
  { msg := "configmap " ++ cfgMapName ++ " not found (referenced by " ++ resourceName ++ ")",
    filePath := "", lineNum := 0, docID := -1, fatal := false, severe := false }

def configMapKeyNotFound (cfgMapName cfgMapKey resourceName : String) :
    FileProcessingError :=
  { msg := "configmap " ++ cfgMapName ++ " does not have key " ++ cfgMapKey ++
      " (referenced by " ++ resourceName ++ ")",
    filePath := "", lineNum := 0, docID := -1, fatal := false, severe := false }

def failedScanningResource (resourceType filePath : String) : FileProcessingError :=
  { msg := "error scanning " ++ resourceType ++ " resource", filePath := filePath,
    lineNum := 0, docID := -1, fatal := false, severe := false }

def notK8sResource (filePath : String) (docID : Int) : FileProcessingError :=
  { msg := "Yaml document is not a K8s resource", filePath := filePath,
    lineNum := 0, docID := docID, fatal := false, severe := false }

def malformedYamlDoc (filePath : String) (lineNum docID : Int) : FileProcessingError :=
  { msg := "YAML document is malformed", filePath := filePath,
    lineNum := lineNum, docID := docID, fatal := false, severe := true }

/- ------------------------------------------------------------------ -/
/- The resource finder (controller): document splitting, typed         -/
/- dispatch, error accumulation                                        -/
/- ------------------------------------------------------------------ -/

/-- The classification outcome of one split YAML document.  The YAML and
Kubernetes decoding libraries are external; a document is abstracted by
what the finder's decoder and `parseResource` dispatch observe:
decoder failure, an unaccepted kind (logged and skipped), an accepted
kind whose `Scan*` call fails, or a successfully extracted record. -/
inductive K8sDoc where
  | notK8s
  | unsupported (kind : String)
  | badResource (kind : String)
  | workload (r : Resource)
  | svc (s : Service)
  | cfgmap (c : CfgMap)
  | route (r : RouteObj)
  | ingress (i : IngressObj)
deriving DecidableEq, Repr

/-- One `decoder.Decode` outcome inside `splitByYamlDocuments`: a decoded
document (mapping or not) or a decode failure.  `startLine` is the 1-based
line at which the document starts in the file; the Go code never reads it
on the failure path (it passes a literal 0). -/
inductive DecodeEvent where
  | doc (isMapping : Bool) (startLine : Nat) (content : K8sDoc)
  | decodeFail (startLine : Nat)
deriving DecidableEq, Repr

def DecodeEvent.isFail : DecodeEvent → Bool
  | .decodeFail _ => true
  | .doc _ _ _ => false

/-- A manifest file: its path, its path relative to the scanned root
(`pathWithoutBaseDir`), and the decode events its bytes produce. -/
structure ScanFile where
  path : String
  relPath : String
  events : List DecodeEvent
deriving DecidableEq, Repr

def splitDocsGo (path : String) : List DecodeEvent → Nat →
    List K8sDoc × List FileProcessingError
  | [], _ => ([], [])
  | .decodeFail _ :: _, documentID =>
    ([], [malformedYamlDoc path 0 (Int.ofNat documentID)])
  | .doc isMapping _ content :: rest, documentID =>
    let r := splitDocsGo path rest (documentID + 1)
    (if isMapping then content :: r.1 else r.1, r.2)

/-- `splitByYamlDocuments` (resource finder): decode documents in order,
keeping mapping documents and silently dropping the rest; `documentID`
counts every decoded document.  A decode failure stops the loop and yields
one `malformedYamlDoc` error carrying line number 0 and the current
ordinal.  (The unreachable `yaml.Marshal` failure branch and the file-read
failure are not modelled.) -/
def splitByYamlDocuments (f : ScanFile) : List K8sDoc × List FileProcessingError :=
  splitDocsGo f.path f.events 0

/-- The finder's accumulating collections (`resourceFinder` fields). -/
structure FinderState where
  workloads : List Resource
  services : List Service
  configmaps : List CfgMap
  servicesToExpose : ServicesToExpose
deriving Repr

def emptyFinderState : FinderState :=
  { workloads := [], services := [], configmaps := [], servicesToExpose := [] }

/-- `parseResource` (resource finder): dispatch one accepted document into
the state, or fail (`badResource` models a `Scan*` error, including the
`unsupported object type` error for Pod/CronTab kinds). -/
def parseResourceGo (st : FinderState) (manifestFilePath : String) :
    K8sDoc → Option FinderState
  | .badResource _ => none
  | .svc s => some { st with services := st.services ++ [{ s with filePath := manifestFilePath }] }
  | .route r => some { st with servicesToExpose := ScanOCRouteObject r st.servicesToExpose }
  | .ingress i => some { st with servicesToExpose := ScanIngressObject i st.servicesToExpose }
  | .cfgmap c => some { st with configmaps := st.configmaps ++ [c] }
  | .workload r => some { st with workloads := st.workloads ++ [{ r with filePath := manifestFilePath }] }
  | .notK8s => some st
  | .unsupported _ => some st

def parseDocsGo (relMfp : String) : List K8sDoc → Nat → FinderState →
    FinderState × List FileProcessingError
  | [], _, st => (st, [])
  | doc :: rest, docID, st =>
    match doc with
    | .notK8s =>
      let r := parseDocsGo relMfp rest (docID + 1) st
      (r.1, notK8sResource relMfp (Int.ofNat docID) :: r.2)
    | .unsupported _ =>
      parseDocsGo relMfp rest (docID + 1) st
    | .badResource kind =>
      let r := parseDocsGo relMfp rest (docID + 1) st
      (r.1, failedScanningResource kind relMfp :: r.2)
    | d =>
      match parseResourceGo st relMfp d with
      | some st' => parseDocsGo relMfp rest (docID + 1) st'
      | none => parseDocsGo relMfp rest (docID + 1) st

/-- Modelled from the spec: `stopProcessing` (a controller helper whose
body is not under src/; only its call sites are).  Per §7, a fatal error
always halts, and in fail-fast mode any error halts. -/
def stopProcessing (stopOn1stErr : Bool) (errs : List FileProcessingError) : Bool :=
  errs.any (fun e => e.fatal || stopOn1stErr)

/-- `parseK8sYaml` (resource finder): split the file, stop on splitter
errors when fail-fast demands it, then classify each document in order,
accumulating non-fatal errors (the loop itself never stops early). -/
def parseK8sYaml (stopOn1stErr : Bool) (f : ScanFile) (st : FinderState) :
    FinderState × List FileProcessingError :=
  let split := splitByYamlDocuments f
  if stopProcessing stopOn1stErr split.2 then (st, split.2)
  else
    let r := parseDocsGo f.relPath split.1 0 st
    (r.1, split.2 ++ r.2)

def getRelevantGo (stopOn1stErr : Bool) : List ScanFile → FinderState →
    List FileProcessingError → FinderState × List FileProcessingError
  | [], st, errs => (st, errs)
  | f :: fs, st, errs =>
    let r := parseK8sYaml stopOn1stErr f st
    let errs' := errs ++ r.2
    if stopProcessing stopOn1stErr errs' then (r.1, errs')
    else getRelevantGo stopOn1stErr fs r.1 errs'

/-- `getRelevantK8sResources` (resource finder): emit `noYamlsFound` when
the locator found nothing, otherwise parse file after file, halting when
`stopProcessing` fires on the accumulated error list.  (Directory-walk
errors are not modelled: the located manifest files are the input.) -/
def getRelevantK8sResources (stopOn1stErr : Bool) (files : List ScanFile) :
    FinderState × List FileProcessingError :=
  if files.isEmpty then (emptyFinderState, [noYamlsFound])
  else getRelevantGo stopOn1stErr files emptyFinderState []

/-- Modelled from the spec: the pipeline caller (the policies-synthesizer
layer, not under src/) that runs the scan.  Per §7, when the pass halts,
whatever was already accumulated is discarded and only the errors are
surfaced. -/
def extractResources (stopOn1stErr : Bool) (files : List ScanFile) :
    FinderState × List FileProcessingError :=
  let r := getRelevantK8sResources stopOn1stErr files
  if stopProcessing stopOn1stErr r.2 then (emptyFinderState, r.2) else r

/- ------------------------------------------------------------------ -/
/- The config-map indirection resolver (resource finder)               -/
/- ------------------------------------------------------------------ -/

/-- Modelled from the spec: `analyzer.NetworkAddressValue` (referenced by
the resolver but not under src/).  Per §3/§4.4, a value passing the
network-address heuristic is kept as the discovered address. -/
def NetworkAddressValue (value : String) : Option String :=
  if IsNetworkAddressValue value then some value else none

/-- The `cfgMapsByName` map build followed by lookup: the last config map
with a given full name wins, as with Go map insertion. -/
def lookupCfgMap (cms : List CfgMap) (n : String) : Option CfgMap :=
  cms.foldl (fun acc cm => if cm.fullName = n then some cm else acc) none

def inlineWholeMapStep (cms : List CfgMap) (acc : Resource × List FileProcessingError)
    (cfgMapRef : String) : Resource × List FileProcessingError :=
  let fullName := acc.1.namespc ++ "/" ++ cfgMapRef
  match lookupCfgMap cms fullName with
  | some cm =>
    ({ acc.1 with networkAddrs :=
        acc.1.networkAddrs ++ cm.data.filterMap (fun kv => NetworkAddressValue kv.2) },
     acc.2)
  | none => (acc.1, acc.2 ++ [configMapNotFound fullName acc.1.name])

def inlineKeyRefStep (cms : List CfgMap) (acc : Resource × List FileProcessingError)
    (cfgMapKeyRef : CfgMapKeyRef) : Resource × List FileProcessingError :=
  let fullName := acc.1.namespc ++ "/" ++ cfgMapKeyRef.name
  match lookupCfgMap cms fullName with
  | some cm =>
    match lookupAssoc cm.data cfgMapKeyRef.key with
    | some v =>
      match NetworkAddressValue v with
      | some netAddr =>
        ({ acc.1 with networkAddrs := acc.1.networkAddrs ++ [netAddr] }, acc.2)
      | none => acc
    | none =>
      (acc.1, acc.2 ++ [configMapKeyNotFound cfgMapKeyRef.name cfgMapKeyRef.key acc.1.name])
  | none => (acc.1, acc.2 ++ [configMapNotFound fullName acc.1.name])

/-- The per-workload part of `inlineConfigMapRefsAsEnvs`: resolve the
whole-map references, then the single-key references. -/
def inlineWorkload (cms : List CfgMap) (res : Resource) :
    Resource × List FileProcessingError :=
  let r1 := res.configMapRefs.foldl (inlineWholeMapStep cms) (res, [])
  res.configMapKeyRefs.foldl (inlineKeyRefStep cms) r1

/-- `inlineConfigMapRefsAsEnvs` (resource finder): append to each
workload's discovered addresses the address-like config-map values it
references, accumulating one non-fatal error per missing map or key. -/
def inlineConfigMapRefsAsEnvs (st : FinderState) :
    FinderState × List FileProcessingError :=
  let r := st.workloads.foldl (fun (acc : List Resource × List FileProcessingError) res =>
    let r := inlineWorkload st.configmaps res
    (acc.1 ++ [r.1], acc.2 ++ r.2)) ([], [])
  ({ st with workloads := r.1 }, r.2)

/- ------------------------------------------------------------------ -/
/- Exposure propagation (resource finder `exposeServices`)             -/
/- ------------------------------------------------------------------ -/

/-- `exposeServices` (resource finder): for each service present in the
exposure-intent table, set `ExposeExternally` when the recorded value is
true and `ExposeToCluster` otherwise; absent services are untouched. -/
def exposeServices (servicesToExpose : ServicesToExpose) (services : List Service) :
    List Service :=
  services.map (fun svc =>
    match lookupAssoc servicesToExpose svc.namespc with
    | none => svc
    | some exposedServicesInNamespace =>
      match lookupAssoc exposedServicesInNamespace svc.name with
      | none => svc
      | some exposeExternally =>
        if exposeExternally then { svc with exposeExternally := true }
        else { svc with exposeToCluster := true })

/- ------------------------------------------------------------------ -/
/- Specification-side definitions (for refinement comparisons)         -/
/- ------------------------------------------------------------------ -/

/-- The address transformation asserted by the specification: strip the
*literal* `http://` prefix when present, and nothing else.  Stated for
comparison with `stripHTTPAddr`, the behaviour of the code. -/
def stripHTTPLiteral (e : String) : String :=
  if "http://".data.isPrefixOf e.data then String.mk (e.data.drop 7) else e

/-- The sources the code discovers for a service, in declarative form: one
entry per (declared port, workload, pool address) triple whose address,
after the cutset trim, equals the canonical endpoint `serviceName:port`.
Every workload is scanned, including the eventual target. -/
def sourcesSpec (resources : List Resource) (s : Service) : List Resource :=
  s.network.flatMap (fun p =>
    resources.flatMap (fun r =>
      (r.networkAddrs.filter
        (fun e => s.name ++ ":" ++ toString p.port = stripHTTPAddr e)).map
        (fun _ => { r with usedPorts := [p.port] })))

/-- The edges one matched service contributes for one target: one edge per
discovered source, or a single absent-source edge when there is none. -/
def gEdges (resources : List Resource) (destRes : Resource) (s : Service) :
    List Connections :=
  let srcs := sourcesSpec resources s
  if srcs.isEmpty then [{ source := none, target := destRes, link := s }]
  else srcs.map (fun r => { source := some r, target := destRes, link := s })

/-- The edge set in declarative form: per target and matched service,
either one edge per discovered source or a single absent-source edge. -/
def edgesSpec (resources : List Resource) (links : List Service) :
    List Connections :=
  resources.flatMap (fun destRes =>
    (findServices destRes.selectors links).flatMap (gEdges resources destRes))

/- ------------------------------------------------------------------ -/
/- Generic list lemmas                                                 -/
/- ------------------------------------------------------------------ -/

theorem foldl_step_append {α β : Type} (step : List β → α → List β) (F : α → List β)
    (h : ∀ acc x, step acc x = acc ++ F x) :
    ∀ (l : List α) (acc : List β), l.foldl step acc = acc ++ l.flatMap F
  | [], acc => by simp
  | x :: l, acc => by
    rw [List.foldl_cons, h, foldl_step_append step F h l, List.flatMap_cons,
      List.append_assoc]

theorem isEmpty_map {α β : Type} (f : α → β) (l : List α) :
    (l.map f).isEmpty = l.isEmpty := by
  cases l <;> rfl

theorem isEmpty_filter {α : Type} (p : α → Bool) :
    ∀ l : List α, (l.filter p).isEmpty = !l.any p
  | [] => by simp
  | a :: l => by
    by_cases h : p a <;> simp [List.filter_cons, h, isEmpty_filter p l]

theorem not_isEmpty_bind {α β : Type} (f : α → List β) (g : α → Bool)
    (h : ∀ x, (!(f x).isEmpty) = g x) :
    ∀ l : List α, (!(l.flatMap f).isEmpty) = l.any g
  | [] => by simp
  | x :: l => by
    rw [List.flatMap_cons, List.any_cons, ← h x, ← not_isEmpty_bind f g h l]
    cases fx : f x with
    | nil => simp
    | cons b bs => simp

/- ------------------------------------------------------------------ -/
/- Characterization of findSource / discoverConnections                -/
/- ------------------------------------------------------------------ -/

theorem findSourceEnvStep_pos {ep : String} {port : Int} {r : Resource}
    {acc : List Resource × Bool} {e : String} (h : ep = stripHTTPAddr e) :
    findSourceEnvStep ep port r acc e =
      (acc.1 ++ [{ r with usedPorts := [port] }], true) := by
  rw [findSourceEnvStep, if_pos h]

theorem findSourceEnvStep_neg {ep : String} {port : Int} {r : Resource}
    {acc : List Resource × Bool} {e : String} (h : ¬ep = stripHTTPAddr e) :
    findSourceEnvStep ep port r acc e = acc := by
  rw [findSourceEnvStep, if_neg h]

theorem findSourceEnv_foldl (ep : String) (port : Int) (r : Resource) :
    ∀ (envs : List String) (acc : List Resource × Bool),
      envs.foldl (findSourceEnvStep ep port r) acc =
        (acc.1 ++ (envs.filter (fun e => ep = stripHTTPAddr e)).map
            (fun _ => { r with usedPorts := [port] }),
         acc.2 || envs.any (fun e => ep = stripHTTPAddr e))
  | [], acc => by simp
  | e :: envs, acc => by
    rw [List.foldl_cons]
    by_cases h : ep = stripHTTPAddr e
    · rw [findSourceEnvStep_pos h, findSourceEnv_foldl ep port r envs,
        List.filter_cons, List.any_cons]
      rw [if_pos (by simpa using h)]
      simp [h, List.append_assoc]
    · rw [findSourceEnvStep_neg h, findSourceEnv_foldl ep port r envs,
        List.filter_cons, List.any_cons]
      rw [if_neg (by simpa using h)]
      simp [h]

theorem findSourceRes_foldl (ep : String) (port : Int) :
    ∀ (resources : List Resource) (acc : List Resource × Bool),
      resources.foldl (findSourceResStep ep port) acc =
        (acc.1 ++ resources.flatMap (fun r =>
            (r.networkAddrs.filter (fun e => ep = stripHTTPAddr e)).map
              (fun _ => { r with usedPorts := [port] })),
         acc.2 || resources.any (fun r =>
            r.networkAddrs.any (fun e => ep = stripHTTPAddr e)))
  | [], acc => by simp
  | r :: rs, acc => by
    rw [List.foldl_cons]
    show rs.foldl (findSourceResStep ep port)
        (r.networkAddrs.foldl (findSourceEnvStep ep port r) acc) = _
    rw [findSourceEnv_foldl, findSourceRes_foldl ep port rs]
    simp [List.flatMap_cons, List.any_cons, List.append_assoc, Bool.or_assoc]

theorem findSourcePort_foldl (resources : List Resource) (sname : String) :
    ∀ (network : List SvcNetworkAttr) (acc : List Resource × Bool),
      network.foldl (findSourcePortStep resources sname) acc =
        (acc.1 ++ network.flatMap (fun p => resources.flatMap (fun r =>
            (r.networkAddrs.filter
              (fun e => sname ++ ":" ++ toString p.port = stripHTTPAddr e)).map
              (fun _ => { r with usedPorts := [p.port] }))),
         acc.2 || network.any (fun p => resources.any (fun r =>
            r.networkAddrs.any
              (fun e => sname ++ ":" ++ toString p.port = stripHTTPAddr e))))
  | [], acc => by simp
  | p :: ps, acc => by
    rw [List.foldl_cons]
    show ps.foldl (findSourcePortStep resources sname)
        (resources.foldl (findSourceResStep (sname ++ ":" ++ toString p.port) p.port) acc) = _
    rw [findSourceRes_foldl, findSourcePort_foldl resources sname ps]
    simp [List.flatMap_cons, List.any_cons, List.append_assoc, Bool.or_assoc]

theorem findSource_eq (resources : List Resource) (s : Service) :
    findSource resources s =
      (sourcesSpec resources s, !(sourcesSpec resources s).isEmpty) := by
  rw [findSource, findSourcePort_foldl]
  refine Prod.ext rfl ?_
  show _ = !(sourcesSpec resources s).isEmpty
  rw [Bool.false_or, sourcesSpec]
  refine (not_isEmpty_bind _ _ (fun p => ?_) s.network).symm
  refine not_isEmpty_bind _ _ (fun r => ?_) resources
  rw [isEmpty_map, isEmpty_filter, Bool.not_not]

theorem discoverSvcStep_eq (resources : List Resource) (destRes : Resource)
    (conns : List Connections) (s : Service) :
    discoverSvcStep resources destRes conns s = conns ++ gEdges resources destRes s := by
  rw [discoverSvcStep, findSource_eq, gEdges]
  cases h : (sourcesSpec resources s).isEmpty <;> simp [h]

theorem discoverConnections_eq (resources : List Resource) (links : List Service) :
    discoverConnections resources links = edgesSpec resources links := by
  rw [discoverConnections, edgesSpec]
  rw [foldl_step_append _
    (fun destRes => (findServices destRes.selectors links).flatMap (gEdges resources destRes))
    (fun acc destRes => foldl_step_append _ (gEdges resources destRes)
      (discoverSvcStep_eq resources destRes) _ acc)]
  rfl


/- ------------------------------------------------------------------ -/
/- Concrete fixtures                                                   -/
/- ------------------------------------------------------------------ -/

def emptyResource : Resource :=
  { name := "", namespc := "", kind := "", selectors := [], networkAddrs := [],
    configMapRefs := [], configMapKeyRefs := [], usedPorts := [], image := "",
    serviceAccountName := "", filePath := "" }

/-- A workload labelled `app:cart` whose pool holds `http://tcart:7070`. -/
def cartCaller : Resource :=
  { emptyResource with
    name := "cart-dep",
    namespc := "ns",
    kind := "Deployment",
    selectors := ["app:cart"],
    networkAddrs := ["http://tcart:7070"] }

/-- A service named `cart` with selector `app:cart` and port 7070. -/
def cartSvc : Service :=
  { name := "cart", namespc := "ns", kind := "Service", type := "ClusterIP",
    selectors := ["app:cart"],
    network := [{ port := 7070, targetPort := 7070, protocol := "TCP" }],
    exposeExternally := false, exposeToCluster := false, filePath := "" }

/-- A workload with an empty label set (and empty pool). -/
def noLabelWorkload : Resource := { emptyResource with name := "w" }

/-- A service with an empty selector set and no ports. -/
def emptySelectorSvc : Service :=
  { name := "s", namespc := "ns", kind := "Service", type := "",
    selectors := [], network := [], exposeExternally := false,
    exposeToCluster := false, filePath := "" }

/- ------------------------------------------------------------------ -/
/- Claim theorems                                                      -/
/- ------------------------------------------------------------------ -/

/-- C1: the containment check used for service matching returns true iff
every element of the service's selector list occurs in the workload's
label list; an empty selector list always matches, and an empty label
list matches only an empty selector list. -/
theorem C1_selector_containment :
    ∀ s1 s2 : List String,
      (areSelectorsContained s1 s2 = true ↔ ∀ v ∈ s2, v ∈ s1) ∧
      areSelectorsContained s1 [] = true ∧
      (areSelectorsContained [] s2 = true ↔ s2 = []) := by
  intro s1 s2
  refine ⟨?_, rfl, ?_⟩
  · simp [areSelectorsContained, List.all_eq_true]
  · cases s2 with
    | nil => simp [areSelectorsContained]
    | cons a l => simp [areSelectorsContained]

/-- C2 (amended): edge production scans the discovered-address pool of
*every* workload, the target included; an address produces an edge exactly
when, after dropping every leading character drawn from `{h,t,p,:,/}`
whenever the address starts with `http://` (Go `TrimLeft` cutset
semantics), it equals the canonical `serviceName:port`; and per matched
service the edges are exactly one per matching (port, workload, address)
triple, with a single absent-source edge when there is no match.
`"http://cart:7070"` still matches canonical `"cart:7070"` and
`"https://cart:7070"` is left untouched, hence matches nothing. -/
theorem C2_endpoint_matching :
    (∀ (resources : List Resource) (links : List Service),
      discoverConnections resources links = edgesSpec resources links) ∧
    stripHTTPAddr "http://cart:7070" = "cart:7070" ∧
    stripHTTPAddr "https://cart:7070" = "https://cart:7070" :=
  ⟨discoverConnections_eq, by decide, by decide⟩

/-- C2 counterexample: the address `http://tcart:7070` — whose
literal-prefix strip is `tcart:7070`, not the canonical `cart:7070` —
nevertheless produces an edge, and its source is the target workload
itself (there is no other workload at all), contradicting both the
"literal prefix strip, no other transformation" and the "every *other*
workload" parts of the claim. -/
theorem C2_counterexample :
    stripHTTPLiteral "http://tcart:7070" = "tcart:7070" ∧
    ("tcart:7070" : String) ≠ "cart:7070" ∧
    discoverConnections [cartCaller] [cartSvc] =
      [{ source := some { cartCaller with usedPorts := [7070] },
         target := cartCaller, link := cartSvc }] :=
  ⟨by decide, by decide, by decide⟩

/-- C3: the network-address heuristic accepts a string iff Go `url.Parse`
accepts it and Go `strconv.Atoi` rejects it; `"cart:7070"` is accepted
and `"8080"` is rejected. -/
theorem C3_network_address_heuristic :
    (∀ value : String,
      IsNetworkAddressValue value = (urlParseOk value && !atoiOk value)) ∧
    IsNetworkAddressValue "cart:7070" = true ∧
    IsNetworkAddressValue "8080" = false :=
  ⟨fun _ => rfl, by decide, by decide⟩

/-- C8 (amended): a workload with an empty label set matches exactly the
services whose selector set is empty — not "no service". -/
theorem C8_empty_labels_matching :
    ∀ links : List Service,
      findServices [] links = links.filter (fun l => l.selectors.isEmpty) := by
  intro links
  rw [findServices]
  refine List.filter_congr ?_
  intro l _
  cases hl : l.selectors with
  | nil => simp [areSelectorsContained, hl]
  | cons a t => simp [areSelectorsContained, hl]

/-- C8 counterexample: a workload with no labels is matched by a service
with an empty selector set, and the analyzer emits an edge having that
workload as target. -/
theorem C8_counterexample :
    findServices [] [emptySelectorSvc] = [emptySelectorSvc] ∧
    discoverConnections [noLabelWorkload] [emptySelectorSvc] =
      [{ source := none, target := noLabelWorkload, link := emptySelectorSvc }] :=
  ⟨by decide, by decide⟩

def emptyValueEnv : EnvVar :=
  { name := "EMPTY", value := "", valueFromConfigMapKeyRef := none }

/-- A pod template with one container whose env has an empty value and
whose args hold a single empty string. -/
def argOnlyPod : PodTemplateSpec :=
  { serviceAccountName := "",
    containers := [{ image := "img", env := [emptyValueEnv], envFrom := [],
                     args := [""] }] }

/-- The same container without the empty command-line argument. -/
def envEmptyPod : PodTemplateSpec :=
  { serviceAccountName := "",
    containers := [{ image := "img", env := [emptyValueEnv], envFrom := [],
                     args := [] }] }

/-- C10: the heuristic accepts the empty string, env values are guarded by
the non-emptiness check, and an empty-string command-line argument is
recorded in the discovered-address pool. -/
theorem C10_empty_string_argument :
    IsNetworkAddressValue "" = true ∧
    (parseDeployResource argOnlyPod "w" "ns" emptyResource).networkAddrs = [""] ∧
    (parseDeployResource envEmptyPod "w" "ns" emptyResource).networkAddrs = [] :=
  ⟨by decide, by decide, by decide⟩

/- ------------------------------------------------------------------ -/
/- Lemmas for the absent-source claim                                  -/
/- ------------------------------------------------------------------ -/

theorem mem_gEdges {resources : List Resource} {t' : Resource} {s' : Service}
    {c : Connections} (hc : c ∈ gEdges resources t' s') :
    c.target = t' ∧ c.link = s' := by
  rw [gEdges] at hc
  by_cases h : (sourcesSpec resources s').isEmpty
  · rw [if_pos h] at hc
    rcases List.mem_singleton.mp hc with rfl
    exact ⟨rfl, rfl⟩
  · rw [if_neg h] at hc
    rcases List.mem_map.mp hc with ⟨r, _, rfl⟩
    exact ⟨rfl, rfl⟩

theorem gEdges_of_no_source {resources : List Resource} {t : Resource}
    {s : Service} (hsrc : sourcesSpec resources s = []) :
    gEdges resources t s = [{ source := none, target := t, link := s }] := by
  rw [gEdges, hsrc]
  rfl

theorem filter_gEdges_links (resources : List Resource) (t : Resource)
    (s : Service) (hsrc : sourcesSpec resources s = []) :
    ∀ matched : List Service, matched.count s = 1 →
      (matched.flatMap (gEdges resources t)).filter
          (fun c => c.target = t ∧ c.link = s) =
        [{ source := none, target := t, link := s }]
  | [], h => by simp at h
  | s' :: ms, h => by
    rw [List.flatMap_cons, List.filter_append]
    by_cases hs : s = s'
    · subst hs
      have hms : ms.count s = 0 := by
        have := List.count_cons_self s ms
        omega
      have hnotin : s ∉ ms := List.count_eq_zero.mp hms
      have hrest : (ms.flatMap (gEdges resources t)).filter
          (fun c => c.target = t ∧ c.link = s) = [] := by
        rw [List.filter_eq_nil_iff]
        intro c hc
        rcases List.mem_flatMap.mp hc with ⟨s'', hs'', hcs⟩
        have hlink := (mem_gEdges hcs).2
        simp only [decide_eq_true_eq, not_and]
        intro _
        rw [hlink]
        intro heq
        exact hnotin (heq ▸ hs'')
      rw [hrest, gEdges_of_no_source hsrc]
      simp
    · have hcount : ms.count s = 1 := by
        have hne : (s' == s) = false := beq_eq_false_iff_ne.mpr (fun heq => hs heq.symm)
        rw [List.count_cons, hne] at h
        simpa using h
      have hhd : (gEdges resources t s').filter
          (fun c => c.target = t ∧ c.link = s) = [] := by
        rw [List.filter_eq_nil_iff]
        intro c hc
        have hlink := (mem_gEdges hc).2
        simp only [decide_eq_true_eq, not_and]
        intro _
        rw [hlink]
        exact fun heq => hs heq.symm
      rw [hhd, List.nil_append]
      exact filter_gEdges_links resources t s hsrc ms hcount

theorem filter_edges_targets (resources : List Resource) (links : List Service)
    (t : Resource) (s : Service) (hsrc : sourcesSpec resources s = [])
    (h2 : (findServices t.selectors links).count s = 1) :
    ∀ outer : List Resource, outer.count t = 1 →
      (outer.flatMap (fun destRes =>
        (findServices destRes.selectors links).flatMap
          (gEdges resources destRes))).filter
          (fun c => c.target = t ∧ c.link = s) =
        [{ source := none, target := t, link := s }]
  | [], h1 => by simp at h1
  | r :: rs, h1 => by
    rw [List.flatMap_cons, List.filter_append]
    by_cases hr : t = r
    · subst hr
      have hrs : rs.count t = 0 := by
        have := List.count_cons_self t rs
        omega
      have hnotin : t ∉ rs := List.count_eq_zero.mp hrs
      have hrest : (rs.flatMap (fun destRes =>
          (findServices destRes.selectors links).flatMap
            (gEdges resources destRes))).filter
          (fun c => c.target = t ∧ c.link = s) = [] := by
        rw [List.filter_eq_nil_iff]
        intro c hc
        rcases List.mem_flatMap.mp hc with ⟨t'', ht'', hct⟩
        rcases List.mem_flatMap.mp hct with ⟨s'', _, hcs⟩
        have htgt := (mem_gEdges hcs).1
        simp only [decide_eq_true_eq, not_and]
        rw [htgt]
        intro heq
        exact absurd (heq ▸ ht'') hnotin
      rw [hrest, List.append_nil]
      exact filter_gEdges_links resources t s hsrc _ h2
    · have hcount : rs.count t = 1 := by
        have hne : (r == t) = false := beq_eq_false_iff_ne.mpr (fun heq => hr heq.symm)
        rw [List.count_cons, hne] at h1
        simpa using h1
      have hhd : ((findServices r.selectors links).flatMap
          (gEdges resources r)).filter
          (fun c => c.target = t ∧ c.link = s) = [] := by
        rw [List.filter_eq_nil_iff]
        intro c hc
        rcases List.mem_flatMap.mp hc with ⟨s'', _, hcs⟩
        have htgt := (mem_gEdges hcs).1
        simp only [decide_eq_true_eq, not_and]
        rw [htgt]
        exact fun heq => absurd heq.symm hr
      rw [hhd, List.nil_append]
      exact filter_edges_targets resources links t s hsrc h2 rs hcount

/-- C7: when a matched service has no discovered source anywhere, the
analyzer still emits exactly one edge for that (target, service) pair,
and its source is absent. -/
theorem C7_absent_source_edge (resources : List Resource) (links : List Service)
    (t : Resource) (s : Service)
    (h1 : resources.count t = 1)
    (h2 : (findServices t.selectors links).count s = 1)
    (h3 : (findSource resources s).2 = false) :
    (discoverConnections resources links).filter
        (fun c => c.target = t ∧ c.link = s) =
      [{ source := none, target := t, link := s }] := by
  have hsrc : sourcesSpec resources s = [] := by
    rw [findSource_eq] at h3
    simpa [List.isEmpty_iff] using h3
  rw [discoverConnections_eq, edgesSpec]
  exact filter_edges_targets resources links t s hsrc h2 resources h1

/-- C7 witness: a concrete no-labels workload fronted by a port-less
service yields exactly the single absent-source edge. -/
theorem C7_absent_source_edge_witness :
    (discoverConnections [noLabelWorkload] [emptySelectorSvc]).filter
        (fun c => c.target = noLabelWorkload ∧ c.link = emptySelectorSvc) =
      [{ source := none, target := noLabelWorkload, link := emptySelectorSvc }] :=
  C7_absent_source_edge [noLabelWorkload] [emptySelectorSvc] noLabelWorkload
    emptySelectorSvc (by decide) (by decide) (by decide)

/- ------------------------------------------------------------------ -/
/- Lemmas for the exposure-intent claim                                -/
/- ------------------------------------------------------------------ -/

/-- A scanned exposure document: an OpenShift Route or an Ingress. -/
inductive ExposureDoc where
  | route (r : RouteObj)
  | ingress (i : IngressObj)
deriving DecidableEq, Repr

def scanExposureDoc (table : ServicesToExpose) : ExposureDoc → ServicesToExpose
  | .route r => ScanOCRouteObject r table
  | .ingress i => ScanIngressObject i table

/-- The exposure-intent table produced by scanning a sequence of Route and
Ingress documents, starting from the finder's empty table. -/
def applyExposureDocs (docs : List ExposureDoc) : ServicesToExpose :=
  docs.foldl scanExposureDoc []

/-- Every value recorded in the table is `false`. -/
def tableAllFalse (t : ServicesToExpose) : Prop :=
  ∀ p ∈ t, ∀ q ∈ p.2, q.2 = false

theorem mem_setAssoc {β : Type} (k : String) (v : β) :
    ∀ (l : List (String × β)) (x : String × β),
      x ∈ setAssoc l k v → x ∈ l ∨ x = (k, v)
  | [], x, hx => by
    rw [setAssoc] at hx
    exact Or.inr (List.mem_singleton.mp hx)
  | (k', v') :: rest, x, hx => by
    rw [setAssoc] at hx
    by_cases h : k' = k
    · rw [if_pos h] at hx
      rcases List.mem_cons.mp hx with rfl | hmem
      · exact Or.inr (by rw [h])
      · exact Or.inl (List.mem_cons_of_mem _ hmem)
    · rw [if_neg h] at hx
      rcases List.mem_cons.mp hx with rfl | hmem
      · exact Or.inl (List.mem_cons_self _ _)
      · rcases mem_setAssoc k v rest x hmem with h1 | h2
        · exact Or.inl (List.mem_cons_of_mem _ h1)
        · exact Or.inr h2

theorem lookupAssoc_mem {β : Type} {k : String} {v : β} :
    ∀ {l : List (String × β)}, lookupAssoc l k = some v → (k, v) ∈ l
  | [], h => by rw [lookupAssoc] at h; exact absurd h (by simp)
  | (k', v') :: rest, h => by
    rw [lookupAssoc] at h
    by_cases hk : k' = k
    · rw [if_pos hk] at h
      subst hk
      exact (Option.some_inj.mp h) ▸ List.mem_cons_self _ _
    · rw [if_neg hk] at h
      exact List.mem_cons_of_mem _ (lookupAssoc_mem h)

theorem tableAllFalse_setExposure {t : ServicesToExpose} (ns name : String)
    (ht : tableAllFalse t) : tableAllFalse (setExposure t ns name false) := by
  rw [setExposure]
  cases hl : lookupAssoc t ns with
  | some inner =>
    intro p hp q hq
    rcases mem_setAssoc _ _ _ _ hp with hmem | rfl
    · exact ht p hmem q hq
    · rcases mem_setAssoc _ _ _ _ hq with hqi | rfl
      · exact ht (ns, inner) (lookupAssoc_mem hl) q hqi
      · rfl
  | none =>
    intro p hp q hq
    rcases mem_setAssoc _ _ _ _ hp with hmem | rfl
    · exact ht p hmem q hq
    · rcases mem_setAssoc _ _ _ _ hq with hqi | rfl
      · exact absurd hqi (List.not_mem_nil q)
      · rfl

theorem tableAllFalse_ensure {t : ServicesToExpose} (ns : String)
    (ht : tableAllFalse t) : tableAllFalse (ensureNamespaceEntry t ns) := by
  rw [ensureNamespaceEntry]
  cases lookupAssoc t ns with
  | some inner => exact ht
  | none =>
    intro p hp q hq
    rcases mem_setAssoc _ _ _ _ hp with hmem | rfl
    · exact ht p hmem q hq
    · exact absurd hq (List.not_mem_nil q)

theorem tableAllFalse_foldl {α : Type} (step : ServicesToExpose → α → ServicesToExpose)
    (hstep : ∀ t a, tableAllFalse t → tableAllFalse (step t a)) :
    ∀ (l : List α) (t : ServicesToExpose),
      tableAllFalse t → tableAllFalse (l.foldl step t)
  | [], _, ht => ht
  | a :: l, t, ht => tableAllFalse_foldl step hstep l (step t a) (hstep t a ht)

theorem tableAllFalse_scanDoc (t : ServicesToExpose) (d : ExposureDoc)
    (ht : tableAllFalse t) : tableAllFalse (scanExposureDoc t d) := by
  cases d with
  | route r =>
    refine tableAllFalse_foldl _ (fun t' b ht' => tableAllFalse_setExposure _ _ ht') _ _ ?_
    exact tableAllFalse_setExposure _ _ (tableAllFalse_ensure _ ht)
  | ingress i =>
    refine tableAllFalse_foldl _ (fun t' rule ht' => ?_) _ _ ?_
    · cases rule.http with
      | some paths =>
        refine tableAllFalse_foldl _ (fun t'' path ht'' => ?_) _ _ ht'
        cases path.backendServiceName with
        | some n => exact tableAllFalse_setExposure _ _ ht''
        | none => exact ht''
      | none => exact ht'
    · cases i.defaultBackendService with
      | some n => exact tableAllFalse_setExposure _ _ (tableAllFalse_ensure _ ht)
      | none => exact tableAllFalse_ensure _ ht

theorem tableAllFalse_apply (docs : List ExposureDoc) :
    tableAllFalse (applyExposureDocs docs) :=
  tableAllFalse_foldl scanExposureDoc tableAllFalse_scanDoc docs []
    (fun p hp => absurd hp (List.not_mem_nil p))

/-- A Route in namespace `shop` targeting service `checkout`. -/
def checkoutRoute : RouteObj :=
  { namespc := "shop", toName := "checkout", alternateBackends := [] }

/-- A service `shop/checkout` with defaults. -/
def checkoutSvc : Service :=
  { name := "checkout", namespc := "shop", kind := "Service", type := "ClusterIP",
    selectors := ["app:checkout"], network := [],
    exposeExternally := false, exposeToCluster := false, filePath := "" }

/-- C9: a table built by Route/Ingress scanning records only `false`, so
propagation only ever sets the cluster-exposure flag (never the external
one through this path), and services absent from the table are unchanged;
a Route targeting `shop/checkout` marks exactly that flag. -/
theorem C9_exposure_internal_only :
    ∀ (docs : List ExposureDoc) (svcs : List Service),
      tableAllFalse (applyExposureDocs docs) ∧
      exposeServices (applyExposureDocs docs) svcs =
        svcs.map (fun svc =>
          match lookupAssoc (applyExposureDocs docs) svc.namespc with
          | none => svc
          | some inner =>
            match lookupAssoc inner svc.name with
            | none => svc
            | some _ => { svc with exposeToCluster := true }) ∧
      exposeServices (applyExposureDocs [.route checkoutRoute]) [checkoutSvc] =
        [{ checkoutSvc with exposeToCluster := true }] := by
  intro docs svcs
  refine ⟨tableAllFalse_apply docs, ?_, by decide⟩
  rw [exposeServices]
  refine List.map_congr_left ?_
  intro svc _
  cases hns : lookupAssoc (applyExposureDocs docs) svc.namespc with
  | none => rfl
  | some inner =>
    cases hin : lookupAssoc inner svc.name with
    | none => simp only [hin]
    | some b =>
      have hb : b = false :=
        tableAllFalse_apply docs (svc.namespc, inner) (lookupAssoc_mem hns)
          (svc.name, b) (lookupAssoc_mem hin)
      subst hb
      simp only [hin]
      rfl

/- ------------------------------------------------------------------ -/
/- Lemmas for the document-splitter claim                              -/
/- ------------------------------------------------------------------ -/

/-- The mapping documents among a list of decode events (what the
splitter keeps). -/
def mappingContents (events : List DecodeEvent) : List K8sDoc :=
  events.filterMap (fun e =>
    match e with
    | .doc true _ c => some c
    | _ => none)

theorem splitDocsGo_fail (path : String) (startLine : Nat) (rest : List DecodeEvent) :
    ∀ (pre : List DecodeEvent) (n : Nat), (∀ e ∈ pre, e.isFail = false) →
      splitDocsGo path (pre ++ .decodeFail startLine :: rest) n =
        (mappingContents pre, [malformedYamlDoc path 0 (Int.ofNat (n + pre.length))])
  | [], n, _ => by
    simp [splitDocsGo, mappingContents]
  | e :: pre, n, hpre => by
    cases e with
    | decodeFail l =>
      exact absurd (hpre _ (List.mem_cons_self _ _)) (by simp [DecodeEvent.isFail])
    | doc m l c =>
      have hpre' : ∀ e ∈ pre, e.isFail = false :=
        fun e he => hpre e (List.mem_cons_of_mem _ he)
      have harith : n + 1 + pre.length = n + (pre.length + 1) := by omega
      rw [List.cons_append]
      show (if m then c :: (splitDocsGo path (pre ++ .decodeFail startLine :: rest) (n + 1)).1
            else (splitDocsGo path (pre ++ .decodeFail startLine :: rest) (n + 1)).1,
            (splitDocsGo path (pre ++ .decodeFail startLine :: rest) (n + 1)).2) = _
      rw [splitDocsGo_fail path startLine rest pre (n + 1) hpre', harith]
      cases m <;> simp [mappingContents]

/-- C5 (amended): a decode failure at ordinal `k` (counting every decoded
document, mapping or not) yields exactly one malformed-document error that
is severe and non-fatal and carries the file path and the ordinal `k`; the
line-number field, however, is recorded as 0 ("unknown"), not as the
1-based line at which the failing document starts. -/
theorem C5_malformed_doc_error (path relPath : String) (pre : List DecodeEvent)
    (startLine : Nat) (rest : List DecodeEvent)
    (hpre : ∀ e ∈ pre, e.isFail = false) :
    splitByYamlDocuments ⟨path, relPath, pre ++ .decodeFail startLine :: rest⟩ =
      (mappingContents pre, [malformedYamlDoc path 0 (Int.ofNat pre.length)]) ∧
    (malformedYamlDoc path 0 (Int.ofNat pre.length)).severe = true ∧
    (malformedYamlDoc path 0 (Int.ofNat pre.length)).fatal = false ∧
    (malformedYamlDoc path 0 (Int.ofNat pre.length)).filePath = path ∧
    (malformedYamlDoc path 0 (Int.ofNat pre.length)).lineNum = 0 := by
  refine ⟨?_, rfl, rfl, rfl, rfl⟩
  have h := splitDocsGo_fail path startLine rest pre 0 hpre
  simpa [splitByYamlDocuments] using h

/-- One well-formed mapping document starting at line 1. -/
def c5PreDoc : DecodeEvent := .doc true 1 (.cfgmap { fullName := "ns/cm", data := [] })

/-- A file whose second document (ordinal 1) starts at line 5 and fails to
decode. -/
def c5File : ScanFile := ⟨"a.yaml", "a.yaml", [c5PreDoc, .decodeFail 5]⟩

/-- C5 witness: instantiating the amended claim on `c5File`. -/
theorem C5_malformed_doc_error_witness :
    splitByYamlDocuments ⟨"a.yaml", "a.yaml", [c5PreDoc] ++ .decodeFail 5 :: []⟩ =
      (mappingContents [c5PreDoc],
       [malformedYamlDoc "a.yaml" 0 (Int.ofNat [c5PreDoc].length)]) ∧
    (malformedYamlDoc "a.yaml" 0 (Int.ofNat [c5PreDoc].length)).severe = true ∧
    (malformedYamlDoc "a.yaml" 0 (Int.ofNat [c5PreDoc].length)).fatal = false ∧
    (malformedYamlDoc "a.yaml" 0 (Int.ofNat [c5PreDoc].length)).filePath = "a.yaml" ∧
    (malformedYamlDoc "a.yaml" 0 (Int.ofNat [c5PreDoc].length)).lineNum = 0 :=
  C5_malformed_doc_error "a.yaml" "a.yaml" [c5PreDoc] 5 [] (by decide)

/-- C5 counterexample: the failing document of `c5File` starts at line 5
(recorded in the decode event), yet the error's line-number field is 0 —
the error does not carry the 1-based start line the claim asserts. -/
theorem C5_counterexample :
    (splitByYamlDocuments c5File).2 = [malformedYamlDoc "a.yaml" 0 1] ∧
    (malformedYamlDoc "a.yaml" 0 1).lineNum = 0 ∧
    c5File.events = [c5PreDoc, .decodeFail 5] ∧
    (0 : Int) ≠ 5 :=
  ⟨by decide, rfl, rfl, by decide⟩

/- ------------------------------------------------------------------ -/
/- Lemmas for the config-map resolution claim                          -/
/- ------------------------------------------------------------------ -/

/-- A finder state holding one workload and the scanned config maps. -/
def singleWorkloadState (res : Resource) (cms : List CfgMap) : FinderState :=
  { workloads := [res], services := [], configmaps := cms, servicesToExpose := [] }

/-- C6: for a workload with one pending single-key reference, the resolver
looks the config map up by `namespace/name` and then the key: a missing
map yields one non-fatal configmap-not-found error, a missing key one
distinct non-fatal key-not-found error, and a present key whose value
passes the heuristic appends exactly that one address to the workload's
pool. -/
theorem C6_single_key_resolution :
    ∀ (cms : List CfgMap) (res : Resource) (kr : CfgMapKeyRef),
      res.configMapRefs = [] → res.configMapKeyRefs = [kr] →
      ((lookupCfgMap cms (res.namespc ++ "/" ++ kr.name) = none →
        inlineConfigMapRefsAsEnvs (singleWorkloadState res cms) =
          (singleWorkloadState res cms,
           [configMapNotFound (res.namespc ++ "/" ++ kr.name) res.name])) ∧
       (∀ cm : CfgMap,
        lookupCfgMap cms (res.namespc ++ "/" ++ kr.name) = some cm →
        lookupAssoc cm.data kr.key = none →
        inlineConfigMapRefsAsEnvs (singleWorkloadState res cms) =
          (singleWorkloadState res cms,
           [configMapKeyNotFound kr.name kr.key res.name])) ∧
       (∀ (cm : CfgMap) (v : String),
        lookupCfgMap cms (res.namespc ++ "/" ++ kr.name) = some cm →
        lookupAssoc cm.data kr.key = some v →
        IsNetworkAddressValue v = true →
        inlineConfigMapRefsAsEnvs (singleWorkloadState res cms) =
          (singleWorkloadState
            { res with networkAddrs := res.networkAddrs ++ [v] } cms, []))) := by
  intro cms res kr h1 h2
  refine ⟨?_, ?_, ?_⟩
  · intro hnone
    simp [inlineConfigMapRefsAsEnvs, singleWorkloadState, inlineWorkload, h1, h2,
      inlineKeyRefStep, hnone]
  · intro cm hsome hkey
    simp [inlineConfigMapRefsAsEnvs, singleWorkloadState, inlineWorkload, h1, h2,
      inlineKeyRefStep, hsome, hkey]
  · intro cm v hsome hkey hpass
    simp [inlineConfigMapRefsAsEnvs, singleWorkloadState, inlineWorkload, h1, h2,
      inlineKeyRefStep, hsome, hkey, NetworkAddressValue, hpass]

/-- The config map `ns/db-cfg` with key `HOST` set to `db:5432`. -/
def dbCfgMap : CfgMap := { fullName := "ns/db-cfg", data := [("HOST", "db:5432")] }

/-- A workload in `ns` with a pending single-key reference to
`db-cfg`/`HOST`. -/
def dbWorkload : Resource :=
  { emptyResource with
    name := "db-client",
    namespc := "ns",
    configMapKeyRefs := [{ name := "db-cfg", key := "HOST" }] }

/-- C6 witness: resolving `dbWorkload` against `dbCfgMap` appends exactly
`db:5432` to the discovered-address pool and reports no error. -/
theorem C6_single_key_resolution_witness :
    inlineConfigMapRefsAsEnvs (singleWorkloadState dbWorkload [dbCfgMap]) =
      (singleWorkloadState
        { dbWorkload with networkAddrs := dbWorkload.networkAddrs ++ ["db:5432"] }
        [dbCfgMap], []) :=
  (C6_single_key_resolution [dbCfgMap] dbWorkload
      { name := "db-cfg", key := "HOST" } rfl rfl).2.2 dbCfgMap "db:5432"
    (by decide) (by decide) (by decide)

/- ------------------------------------------------------------------ -/
/- Lemmas for the fail-fast / best-effort claim                        -/
/- ------------------------------------------------------------------ -/

/-- The errors one file contributes (they do not depend on the finder
state accumulated so far). -/
def fileErrors (stopOn1stErr : Bool) (f : ScanFile) : List FileProcessingError :=
  (parseK8sYaml stopOn1stErr f emptyFinderState).2

theorem parseDocsGo_errs (relMfp : String) :
    ∀ (docs : List K8sDoc) (n : Nat) (st st' : FinderState),
      (parseDocsGo relMfp docs n st).2 = (parseDocsGo relMfp docs n st').2 := by
  intro docs
  induction docs with
  | nil => intro n st st'; rfl
  | cons d rest ih =>
    intro n st st'
    cases d with
    | notK8s => simp only [parseDocsGo]; rw [ih]
    | unsupported k => simp only [parseDocsGo]; rw [ih]
    | badResource k => simp only [parseDocsGo]; rw [ih]
    | workload r => simp only [parseDocsGo, parseResourceGo]; rw [ih]
    | svc s => simp only [parseDocsGo, parseResourceGo]; rw [ih]
    | cfgmap c => simp only [parseDocsGo, parseResourceGo]; rw [ih]
    | route r => simp only [parseDocsGo, parseResourceGo]; rw [ih]
    | ingress i => simp only [parseDocsGo, parseResourceGo]; rw [ih]

theorem parseK8sYaml_errs (stopOn1stErr : Bool) (f : ScanFile) (st : FinderState) :
    (parseK8sYaml stopOn1stErr f st).2 = fileErrors stopOn1stErr f := by
  rw [fileErrors, parseK8sYaml, parseK8sYaml]
  by_cases h : stopProcessing stopOn1stErr (splitByYamlDocuments f).2
  · rw [if_pos h, if_pos h]
  · rw [if_neg h, if_neg h]
    show _ ++ _ = _ ++ _
    rw [parseDocsGo_errs f.relPath (splitByYamlDocuments f).1 0 st emptyFinderState]

theorem splitDocsGo_nonfatal (path : String) :
    ∀ (events : List DecodeEvent) (n : Nat),
      ∀ e ∈ (splitDocsGo path events n).2, e.fatal = false
  | [], _, e, he => absurd he (List.not_mem_nil e)
  | .decodeFail _ :: _, n, e, he => by
    rw [splitDocsGo] at he
    rcases List.mem_singleton.mp he with rfl
    rfl
  | .doc m l c :: rest, n, e, he => by
    rw [splitDocsGo] at he
    exact splitDocsGo_nonfatal path rest (n + 1) e he

theorem parseDocsGo_nonfatal (relMfp : String) :
    ∀ (docs : List K8sDoc) (n : Nat) (st : FinderState),
      ∀ e ∈ (parseDocsGo relMfp docs n st).2, e.fatal = false := by
  intro docs
  induction docs with
  | nil => intro n st e he; exact absurd he (List.not_mem_nil e)
  | cons d rest ih =>
    intro n st e he
    cases d with
    | notK8s =>
      simp only [parseDocsGo] at he
      rcases List.mem_cons.mp he with rfl | hmem
      · rfl
      · exact ih _ _ e hmem
    | unsupported k =>
      simp only [parseDocsGo] at he
      exact ih _ _ e he
    | badResource k =>
      simp only [parseDocsGo] at he
      rcases List.mem_cons.mp he with rfl | hmem
      · rfl
      · exact ih _ _ e hmem
    | workload r =>
      simp only [parseDocsGo, parseResourceGo] at he
      exact ih _ _ e he
    | svc s =>
      simp only [parseDocsGo, parseResourceGo] at he
      exact ih _ _ e he
    | cfgmap c =>
      simp only [parseDocsGo, parseResourceGo] at he
      exact ih _ _ e he
    | route r =>
      simp only [parseDocsGo, parseResourceGo] at he
      exact ih _ _ e he
    | ingress i =>
      simp only [parseDocsGo, parseResourceGo] at he
      exact ih _ _ e he

theorem fileErrors_nonfatal (stopOn1stErr : Bool) (f : ScanFile) :
    ∀ e ∈ fileErrors stopOn1stErr f, e.fatal = false := by
  intro e he
  rw [fileErrors, parseK8sYaml] at he
  by_cases h : stopProcessing stopOn1stErr (splitByYamlDocuments f).2
  · rw [if_pos h] at he
    exact splitDocsGo_nonfatal f.path f.events 0 e he
  · rw [if_neg h] at he
    rcases List.mem_append.mp he with hs | hp
    · exact splitDocsGo_nonfatal f.path f.events 0 e hs
    · exact parseDocsGo_nonfatal f.relPath _ 0 _ e hp

theorem stopProcessing_false_of_nonfatal {errs : List FileProcessingError}
    (h : ∀ e ∈ errs, e.fatal = false) : stopProcessing false errs = false := by
  rw [stopProcessing, List.any_eq_false]
  intro e he
  simp [h e he]

theorem stopProcessing_true_eq (errs : List FileProcessingError) :
    stopProcessing true errs = !errs.isEmpty := by
  cases errs with
  | nil => rfl
  | cons e l => simp [stopProcessing]

theorem getRelevantGo_false :
    ∀ (fs : List ScanFile) (st : FinderState) (errs : List FileProcessingError),
      (∀ e ∈ errs, e.fatal = false) →
      getRelevantGo false fs st errs =
        (fs.foldl (fun st f => (parseK8sYaml false f st).1) st,
         errs ++ fs.flatMap (fileErrors false))
  | [], st, errs, _ => by simp [getRelevantGo]
  | f :: fs, st, errs, h => by
    rw [getRelevantGo]
    have herr : (parseK8sYaml false f st).2 = fileErrors false f :=
      parseK8sYaml_errs false f st
    have hnf : ∀ e ∈ errs ++ (parseK8sYaml false f st).2, e.fatal = false := by
      intro e he
      rcases List.mem_append.mp he with h1 | h2
      · exact h e h1
      · rw [herr] at h2
        exact fileErrors_nonfatal false f e h2
    rw [if_neg (by rw [stopProcessing_false_of_nonfatal hnf]; exact Bool.false_ne_true)]
    rw [getRelevantGo_false fs (parseK8sYaml false f st).1 _ hnf]
    rw [herr, List.foldl_cons, List.flatMap_cons, List.append_assoc]

theorem getRelevantGo_true_stops :
    ∀ (clean : List ScanFile) (bad : ScanFile) (rest : List ScanFile) (st : FinderState),
      (∀ f ∈ clean, fileErrors true f = []) → fileErrors true bad ≠ [] →
      (getRelevantGo true (clean ++ bad :: rest) st []).2 = fileErrors true bad
  | [], bad, rest, st, _, hbad => by
    rw [List.nil_append, getRelevantGo]
    have herr : (parseK8sYaml true bad st).2 = fileErrors true bad :=
      parseK8sYaml_errs true bad st
    have hne : ([] ++ (parseK8sYaml true bad st).2).isEmpty = false := by
      rw [List.nil_append, herr]
      cases hx : fileErrors true bad with
      | nil => exact absurd hx hbad
      | cons a l => rfl
    rw [if_pos (by rw [stopProcessing_true_eq, hne]; rfl)]
    rw [List.nil_append, herr]
  | f :: clean, bad, rest, st, hclean, hbad => by
    rw [List.cons_append, getRelevantGo]
    have herr : (parseK8sYaml true f st).2 = fileErrors true f :=
      parseK8sYaml_errs true f st
    have hf : fileErrors true f = [] := hclean f (List.mem_cons_self _ _)
    rw [herr, hf]
    rw [if_neg (by rw [stopProcessing_true_eq]; exact Bool.false_ne_true)]
    exact getRelevantGo_true_stops clean bad rest (parseK8sYaml true f st).1
      (fun g hg => hclean g (List.mem_cons_of_mem _ hg)) hbad

/-- C4 (amended): in fail-fast mode the scan halts at the first file that
produces any error and surfaces that file's errors — at least one, but
possibly more than one, since the per-document loop inside a file does not
stop early — while the accumulated records are discarded; in best-effort
mode the scan returns every file's errors together with all accumulated
records. -/
theorem C4_failfast_vs_besteffort (clean : List ScanFile) (bad : ScanFile)
    (rest : List ScanFile)
    (hclean : ∀ f ∈ clean, fileErrors true f = [])
    (hbad : fileErrors true bad ≠ []) :
    (extractResources true (clean ++ bad :: rest)).2 = fileErrors true bad ∧
    (extractResources true (clean ++ bad :: rest)).1 = emptyFinderState ∧
    ∀ files : List ScanFile, files ≠ [] →
      extractResources false files =
        (files.foldl (fun st f => (parseK8sYaml false f st).1) emptyFinderState,
         files.flatMap (fileErrors false)) := by
  have hnonempty : (clean ++ bad :: rest).isEmpty = false := by
    cases clean <;> rfl
  have herrs : (getRelevantK8sResources true (clean ++ bad :: rest)).2 =
      fileErrors true bad := by
    rw [getRelevantK8sResources, if_neg (by rw [hnonempty]; exact Bool.false_ne_true)]
    exact getRelevantGo_true_stops clean bad rest emptyFinderState hclean hbad
  have hstop : stopProcessing true (getRelevantK8sResources true (clean ++ bad :: rest)).2 = true := by
    rw [herrs, stopProcessing_true_eq]
    cases hx : fileErrors true bad with
    | nil => exact absurd hx hbad
    | cons a l => rfl
  refine ⟨?_, ?_, ?_⟩
  · rw [extractResources, if_pos hstop]
    exact herrs
  · rw [extractResources, if_pos hstop]
  · intro files hfiles
    have hne : files.isEmpty = false := by
      cases files with
      | nil => exact absurd rfl hfiles
      | cons a l => rfl
    have hmain : getRelevantK8sResources false files =
        (files.foldl (fun st f => (parseK8sYaml false f st).1) emptyFinderState,
         files.flatMap (fileErrors false)) := by
      rw [getRelevantK8sResources, if_neg (by rw [hne]; exact Bool.false_ne_true)]
      have := getRelevantGo_false files emptyFinderState []
        (fun e he => absurd he (List.not_mem_nil e))
      simpa using this
    have hnf : ∀ e ∈ (getRelevantK8sResources false files).2, e.fatal = false := by
      rw [hmain]
      intro e he
      rcases List.mem_flatMap.mp he with ⟨f, _, hef⟩
      exact fileErrors_nonfatal false f e hef
    rw [extractResources,
      if_neg (by rw [stopProcessing_false_of_nonfatal hnf]; exact Bool.false_ne_true)]
    exact hmain

/-- A file whose two documents both fail to decode as K8s resources. -/
def c4BadFile : ScanFile :=
  ⟨"f.yaml", "f.yaml", [.doc true 1 .notK8s, .doc true 2 .notK8s]⟩

/-- C4 witness: the amended claim instantiated on `c4BadFile` alone. -/
theorem C4_failfast_vs_besteffort_witness :
    (extractResources true ([] ++ c4BadFile :: [])).2 = fileErrors true c4BadFile ∧
    (extractResources true ([] ++ c4BadFile :: [])).1 = emptyFinderState :=
  ⟨(C4_failfast_vs_besteffort [] c4BadFile []
      (fun f hf => absurd hf (List.not_mem_nil f)) (by decide)).1,
   (C4_failfast_vs_besteffort [] c4BadFile []
      (fun f hf => absurd hf (List.not_mem_nil f)) (by decide)).2.1⟩

/-- C4 counterexample: a fail-fast scan of a directory holding one file
with two undecodable documents returns two errors, not exactly one. -/
theorem C4_counterexample :
    (extractResources true [c4BadFile]).2.length = 2 ∧
    ¬(extractResources true [c4BadFile]).2.length = 1 :=
  ⟨by decide, by decide⟩
